import Mathlib

/-!
# The notcurses C examples (`examples/C/00..02`) as call traces

The three programs are straight-line clients of the notcurses library.  Each
`main` is embedded as a function from the results the library hands back
(`Env`) to the sequence of library calls the program makes (`Event`s, in
program order) together with the value `main` returns.  The library itself is
not part of the sources; its results are universally quantified.
-/

namespace Notcurses

/-! ## C values -/

/-- A pointer value; address 0 is the null pointer. -/
abbrev Ptr := Nat

/-- The null pointer. -/
def NULL : Ptr := 0

/-- Value of `EXIT_SUCCESS` (stdlib.h is not among the sources; POSIX value). -/
def EXIT_SUCCESS : Int := 0

/-- Value of `EXIT_FAILURE` (stdlib.h is not among the sources; POSIX value). -/
def EXIT_FAILURE : Int := 1

/-- Number of values of a 32-bit `unsigned`. -/
def UINT_RANGE : Nat := 2 ^ 32

/-- The 32-bit word `w` read as a two's complement `int`. -/
def asInt (w : Nat) : Int :=
  if w % UINT_RANGE < 2 ^ 31 then ((w % UINT_RANGE : Nat) : Int)
  else ((w % UINT_RANGE : Nat) : Int) - (UINT_RANGE : Int)

/-- The 32-bit word that holds the `int` value `v`. -/
def intWord (v : Int) : Nat := (v % (UINT_RANGE : Int)).toNat

/-- The C operator `|` on integer values (bitwise or, two's complement); it
associates to the left, so `a | b | c` is `bor (bor a b) c`. -/
def bor (a b : Int) : Int := Int.lor a b

/-! ## Library data the examples touch -/

/-- The five `NCOPTION_*` constants the examples use.  They are macros of
notcurses.h, which is not among the sources, so their values are parameters. -/
structure NcOptionConsts where
  NCOPTION_SUPPRESS_BANNERS : Int
  NCOPTION_PRESERVE_CURSOR : Int
  NCOPTION_NO_ALTERNATE_SCREEN : Int
  NCOPTION_NO_CLEAR_BITMAPS : Int
  NCOPTION_DRAIN_INPUT : Int
deriving DecidableEq, Repr

/-- A `struct notcurses_options` object as written by a designated
initialiser: the members the initialiser names, with their values.  Every
member the initialiser does not name is zero (C initialisation rule). -/
structure notcurses_options where
  inits : List (String × Int)
deriving DecidableEq, Repr

/-- Value of member `name` of an options object. -/
def notcurses_options.member (o : notcurses_options) (name : String) : Int :=
  match o.inits.lookup name with
  | some v => v
  | none => 0

/-- The fields of `nccapabilities` that example 02 reads.  The struct is
declared in notcurses.h, not among the sources: the flags are taken as truth
values (they are only tested with `?:`), and `colors` as the integer value the
call site hands to `%i`. -/
structure nccapabilities where
  colors : Int
  utf8 : Bool
  rgb : Bool
  halfblocks : Bool
  quadrants : Bool
  sextants : Bool
  braille : Bool
deriving DecidableEq, Repr

/-- Heap strings the library allocates for the caller, named by the call that
allocates them (each call returns a fresh object). -/
inductive Alloc
  | osversion
  | terminal
deriving DecidableEq, Repr

/-- An argument of a variadic formatting call, with its C type. -/
inductive Arg
  | str (a : Alloc)
  | lit (s : String)
  | uint (v : Nat)
  | int (v : Int)
deriving DecidableEq, Repr

/-- One library (or libc) call made by a program, with the arguments it
passed and the value the call handed back. -/
inductive Event
  | core_init (opts : Option notcurses_options) (ret : Ptr)
  | stdplane (nc : Ptr) (ret : Ptr)
  | putstr_yx (n : Ptr) (y x : Int) (s : String) (ret : Int)
  | set_scrolling (n : Ptr) (scrollp : Bool) (ret : Bool)
  | dim_yx (n : Ptr) (y x : Nat)
  | osversion (ret : Alloc)
  | detected_terminal (nc : Ptr) (ret : Alloc)
  | printf_yx (n : Ptr) (y x : Int) (fmt : String) (args : List Arg) (ret : Int)
  | free (a : Alloc)
  | capabilities (nc : Ptr)
  | canpixel (nc : Ptr) (ret : Bool)
  | render (nc : Ptr) (ret : Int)
  | sleep (seconds : Nat)
  | stop (nc : Ptr) (ret : Int)
deriving DecidableEq, Repr

/-- What the library hands back on one execution: one field per call site. -/
structure Env where
  nc : Ptr
  stdn : Ptr
  putstr_ret : Int
  set_scrolling_ret : Bool
  dimy : Nat
  dimx : Nat
  osversion : String
  terminal : String
  printf_ret1 : Int
  printf_ret2 : Int
  caps : nccapabilities
  canpixel : Bool
  render_ret : Int
  stop_ret : Int
deriving DecidableEq, Repr

/-- Text of a heap string on an execution. -/
def Env.heap (env : Env) : Alloc → String
  | Alloc.osversion => env.osversion
  | Alloc.terminal => env.terminal

/-- Result of running a `main`: the calls it made in order, the value it
returned, and the content of the session's capabilities object at that point. -/
structure Outcome where
  trace : List Event
  exit : Int
  caps : nccapabilities
deriving DecidableEq, Repr

/-! ## The three programs -/

/-- `examples/C/00-hello-world.c`, `main`.  Control reaches the closing brace
of `main`, which returns 0. -/
def main00 (env : Env) : Outcome :=
  let nc := env.nc
  let t := [Event.core_init none nc]
  let stdn := env.stdn
  let t := t ++ [Event.stdplane nc stdn]
  let t := t ++ [Event.putstr_yx stdn 0 0 "hello world" env.putstr_ret]
  let t := t ++ [Event.render nc env.render_ret]
  let t := t ++ [Event.sleep 1]
  let t := t ++ [Event.stop nc env.stop_ret]
  { trace := t, exit := 0, caps := env.caps }

/-- The `nopts` initialiser of example 01 (flags in source order). -/
def nopts01 (k : NcOptionConsts) : notcurses_options :=
  { inits := [("flags",
      bor (bor (bor (bor
        k.NCOPTION_SUPPRESS_BANNERS
        k.NCOPTION_PRESERVE_CURSOR)
        k.NCOPTION_NO_ALTERNATE_SCREEN)
        k.NCOPTION_NO_CLEAR_BITMAPS)
        k.NCOPTION_DRAIN_INPUT)] }

/-- `examples/C/01-hello-world-cli.c`, `main`. -/
def main01 (k : NcOptionConsts) (env : Env) : Outcome :=
  let nopts := nopts01 k
  let nc := env.nc
  let t := [Event.core_init (some nopts) nc]
  if nc = NULL then
    { trace := t, exit := EXIT_FAILURE, caps := env.caps }
  else
    let stdn := env.stdn
    let t := t ++ [Event.stdplane nc stdn]
    let t := t ++ [Event.putstr_yx stdn (-1) (-1) "hello world" env.putstr_ret]
    let t := t ++ [Event.render nc env.render_ret]
    let t := t ++ [Event.stop nc env.stop_ret]
    if env.stop_ret ≠ 0 then
      { trace := t, exit := EXIT_FAILURE, caps := env.caps }
    else
      { trace := t, exit := EXIT_SUCCESS, caps := env.caps }

/-- The `nopts` initialiser of example 02 (flags in source order). -/
def nopts02 (k : NcOptionConsts) : notcurses_options :=
  { inits := [("flags",
      bor (bor (bor (bor
        k.NCOPTION_NO_ALTERNATE_SCREEN
        k.NCOPTION_SUPPRESS_BANNERS)
        k.NCOPTION_PRESERVE_CURSOR)
        k.NCOPTION_NO_CLEAR_BITMAPS)
        k.NCOPTION_DRAIN_INPUT)] }

/-- Format string of the environment report of example 02. -/
def fmtEnvironment : String :=
  "\nOperating System: %s\nTerminal: %s\n" ++ "Dimensions: %i rows, %i cols\n\n"

/-- Format string of the capability report of example 02. -/
def fmtCapabilities : String :=
  "Capabilities:\n" ++
  "  utf8: %s\n  halfblocks: %s\n  quadrants: %s\n  sextants: %s\n" ++
  "  braille: %s\n  pixel: %s\n  24bit-color: %s\n" ++
  "  palette colors: %i\n"

/-- The C expression `b ? "true" : "false"`. -/
def boolText (b : Bool) : String := if b then "true" else "false"

/-- `examples/C/02-capabilities.c`, `main`. -/
def main02 (k : NcOptionConsts) (env : Env) : Outcome :=
  let nopts := nopts02 k
  let nc := env.nc
  let t := [Event.core_init (some nopts) nc]
  if nc = NULL then
    { trace := t, exit := EXIT_FAILURE, caps := env.caps }
  else
    let stdn := env.stdn
    let t := t ++ [Event.stdplane nc stdn]
    let t := t ++ [Event.set_scrolling stdn true env.set_scrolling_ret]
    let dimy := env.dimy % UINT_RANGE
    let dimx := env.dimx % UINT_RANGE
    let t := t ++ [Event.dim_yx stdn dimy dimx]
    let str_osversion := Alloc.osversion
    let t := t ++ [Event.osversion str_osversion]
    let str_terminal := Alloc.terminal
    let t := t ++ [Event.detected_terminal nc str_terminal]
    let t := t ++ [Event.printf_yx stdn (-1) (-1) fmtEnvironment
      [Arg.str str_osversion, Arg.str str_terminal, Arg.uint dimy, Arg.uint dimx]
      env.printf_ret1]
    let t := t ++ [Event.free str_osversion]
    let t := t ++ [Event.free str_terminal]
    let caps := env.caps
    let t := t ++ [Event.capabilities nc]
    let t := t ++ [Event.canpixel nc env.canpixel]
    let t := t ++ [Event.printf_yx stdn (-1) (-1) fmtCapabilities
      [Arg.lit (boolText caps.utf8),
       Arg.lit (boolText caps.halfblocks),
       Arg.lit (boolText caps.quadrants),
       Arg.lit (boolText caps.sextants),
       Arg.lit (boolText caps.braille),
       Arg.lit (boolText env.canpixel),
       Arg.lit (boolText caps.rgb),
       Arg.int caps.colors]
      env.printf_ret2]
    let t := t ++ [Event.render nc env.render_ret]
    let t := t ++ [Event.stop nc env.stop_ret]
    if env.stop_ret ≠ 0 then
      { trace := t, exit := EXIT_FAILURE, caps := caps }
    else
      { trace := t, exit := EXIT_SUCCESS, caps := caps }

/-- The calls of example 02 on an execution whose initialisation succeeded,
in program order (lines 20 to 63 of the source). -/
def main02_calls (k : NcOptionConsts) (env : Env) : List Event :=
  [Event.core_init (some (nopts02 k)) env.nc,
   Event.stdplane env.nc env.stdn,
   Event.set_scrolling env.stdn true env.set_scrolling_ret,
   Event.dim_yx env.stdn (env.dimy % UINT_RANGE) (env.dimx % UINT_RANGE),
   Event.osversion Alloc.osversion,
   Event.detected_terminal env.nc Alloc.terminal,
   Event.printf_yx env.stdn (-1) (-1) fmtEnvironment
     [Arg.str Alloc.osversion, Arg.str Alloc.terminal,
      Arg.uint (env.dimy % UINT_RANGE), Arg.uint (env.dimx % UINT_RANGE)]
     env.printf_ret1,
   Event.free Alloc.osversion,
   Event.free Alloc.terminal,
   Event.capabilities env.nc,
   Event.canpixel env.nc env.canpixel,
   Event.printf_yx env.stdn (-1) (-1) fmtCapabilities
     [Arg.lit (boolText env.caps.utf8),
      Arg.lit (boolText env.caps.halfblocks),
      Arg.lit (boolText env.caps.quadrants),
      Arg.lit (boolText env.caps.sextants),
      Arg.lit (boolText env.caps.braille),
      Arg.lit (boolText env.canpixel),
      Arg.lit (boolText env.caps.rgb),
      Arg.int env.caps.colors]
     env.printf_ret2,
   Event.render env.nc env.render_ret,
   Event.stop env.nc env.stop_ret]

/-! ## Formatted output

`ncplane_printf_yx` formats like `printf`.  Neither it nor libc is among the
sources; only the conversions the examples use are given a meaning. -/

/-- Decimal text of an integer, as `%i` prints an `int`. -/
def decimal (v : Int) : List Char := (toString v).toList

/-- Text one conversion produces for one argument.  `%s` prints the string
the argument designates.  `%i` reads the argument's 32-bit word as an `int`
(for an `unsigned` argument above `INT_MAX` the C standard gives the call no
meaning; the word is read the way the usual ABIs do).  `none`: the conversion
does not fit the argument, or is not one the examples use. -/
def convert (heap : Alloc → String) (spec : Char) (a : Arg) : Option (List Char) :=
  if spec = 's' then
    match a with
    | Arg.str p => some (heap p).toList
    | Arg.lit s => some s.toList
    | _ => none
  else if spec = 'i' then
    match a with
    | Arg.int v => some (decimal (asInt (intWord v)))
    | Arg.uint v => some (decimal (asInt v))
    | _ => none
  else none

/-- Output of a `printf`-style call: ordinary characters are copied, each
`%c` consumes the next argument.  `none`: an argument is missing or a
conversion has no meaning. -/
def cformat (heap : Alloc → String) : List Char → List Arg → Option (List Char)
  | [], _ => some []
  | c :: fmt, args =>
    if c = '%' then
      match fmt, args with
      | spec :: rest, a :: args1 =>
        match convert heap spec a, cformat heap rest args1 with
        | some t, some r => some (t ++ r)
        | _, _ => none
      | _, _ => none
    else
      match cformat heap fmt args with
      | some r => some (c :: r)
      | none => none

/-- Number of conversion specifiers in a format string. -/
def countSpecs : List Char → Nat
  | [] => 0
  | c :: fmt =>
    if c = '%' then
      match fmt with
      | _ :: rest => 1 + countSpecs rest
      | [] => 1
    else countSpecs fmt

/-- The formatting calls of a trace, in order: format string and arguments. -/
def printfCalls : List Event → List (String × List Arg)
  | [] => []
  | Event.printf_yx _ _ _ fmt args _ :: es => (fmt, args) :: printfCalls es
  | _ :: es => printfCalls es

/-- The text "true" or "false" a report line shows for a capability. -/
def shown (b : Bool) : String :=
  match b with
  | true => "true"
  | false => "false"

/-! ## Session discipline

The session state machine of the spec, run over a trace: which calls a state
admits and the state each call leaves. -/

/-- Session states of the spec: `Uninitialized → Negotiating → Active →
Stopped`.  A call to `notcurses_core_init` is recorded together with its
result, so a trace never rests in `Negotiating`.  `Active` carries the session
pointer and the planes the session has handed out. -/
inductive SessionState
  | Uninitialized
  | Negotiating
  | Active (nc : Ptr) (planes : List Ptr)
  | Stopped
deriving DecidableEq, Repr

/-- Whether state `s` is `Active` for session `nc`. -/
def SessionState.activeFor (s : SessionState) (nc : Ptr) : Bool :=
  match s with
  | SessionState.Active p _ => decide (p = nc)
  | _ => false

/-- Whether state `s` is `Active` and plane `n` belongs to its session. -/
def SessionState.ownsPlane (s : SessionState) (n : Ptr) : Bool :=
  match s with
  | SessionState.Active _ planes => decide (n ∈ planes)
  | _ => false

/-- Whether the state admits the call.  Every call on a session or on a plane
needs the `Active` state of that session; `notcurses_osversion`, `free` and
`sleep` touch no session. -/
def allowed (s : SessionState) : Event → Bool
  | Event.core_init _ _ => decide (s = SessionState.Uninitialized)
  | Event.stdplane nc _ => s.activeFor nc
  | Event.putstr_yx n _ _ _ _ => s.ownsPlane n
  | Event.set_scrolling n _ _ => s.ownsPlane n
  | Event.dim_yx n _ _ => s.ownsPlane n
  | Event.osversion _ => true
  | Event.detected_terminal nc _ => s.activeFor nc
  | Event.printf_yx n _ _ _ _ _ => s.ownsPlane n
  | Event.free _ => true
  | Event.capabilities nc => s.activeFor nc
  | Event.canpixel nc _ => s.activeFor nc
  | Event.render nc _ => s.activeFor nc
  | Event.sleep _ => true
  | Event.stop nc _ => s.activeFor nc

/-- State after the call.  Initialisation that returns `NULL` creates no
session; a successful one makes the returned session `Active`; the standard
plane a session hands out belongs to it; `notcurses_stop` ends the session. -/
def next (s : SessionState) : Event → SessionState
  | Event.core_init _ ret =>
    match s with
    | SessionState.Uninitialized =>
      if ret = NULL then SessionState.Uninitialized else SessionState.Active ret []
    | other => other
  | Event.stdplane nc ret =>
    match s with
    | SessionState.Active p planes =>
      if p = nc then SessionState.Active p (ret :: planes) else s
    | other => other
  | Event.stop nc _ =>
    match s with
    | SessionState.Active p planes =>
      if p = nc then SessionState.Stopped else SessionState.Active p planes
    | other => other
  | _ => s

/-- State after a sequence of calls. -/
def stateAfter (s : SessionState) : List Event → SessionState
  | [] => s
  | e :: es => stateAfter (next s e) es

/-- Every call of the trace is admitted by the state it is made in. -/
def conforms (s : SessionState) : List Event → Bool
  | [] => true
  | e :: es => allowed s e && conforms (next s e) es

/-- Whether the call is `notcurses_stop`. -/
def isStop : Event → Bool
  | Event.stop _ _ => true
  | _ => false

/-- Whether the call uses session `nc` or plane `n`. -/
def touches (nc n : Ptr) : Event → Bool
  | Event.core_init _ _ => false
  | Event.stdplane p _ => decide (p = nc)
  | Event.putstr_yx m _ _ _ _ => decide (m = n)
  | Event.set_scrolling m _ _ => decide (m = n)
  | Event.dim_yx m _ _ => decide (m = n)
  | Event.osversion _ => false
  | Event.detected_terminal p _ => decide (p = nc)
  | Event.printf_yx m _ _ _ _ _ => decide (m = n)
  | Event.free _ => false
  | Event.capabilities p => decide (p = nc)
  | Event.canpixel p _ => decide (p = nc)
  | Event.render p _ => decide (p = nc)
  | Event.sleep _ => false
  | Event.stop p _ => decide (p = nc)

/-! ## Scrolling -/

/-- Scrolling flag of plane `n` after the calls of a trace, from the flag
`flag` before them: `ncplane_set_scrolling(n, b)` sets it to `b`. -/
def scrollingAfter (n : Ptr) (flag : Bool) : List Event → Bool
  | [] => flag
  | Event.set_scrolling m b _ :: es =>
    scrollingAfter n (if m = n then b else flag) es
  | _ :: es => scrollingAfter n flag es

/-- The plane a text-writing call writes to; `none` for other calls. -/
def writtenPlane : Event → Option Ptr
  | Event.putstr_yx n _ _ _ _ => some n
  | Event.printf_yx n _ _ _ _ _ => some n
  | _ => none

/-- Whether the call is `notcurses_render`. -/
def isRender : Event → Bool
  | Event.render _ _ => true
  | _ => false

/-- Every text-writing call of the trace writes to plane `n` while the
scrolling flag of `n` is on, and every render happens while it is on. -/
def scrolledWrites (n : Ptr) (flag : Bool) : List Event → Bool
  | [] => true
  | Event.set_scrolling m b r :: es =>
    scrolledWrites n (scrollingAfter n flag [Event.set_scrolling m b r]) es
  | Event.putstr_yx m _ _ _ _ :: es => decide (m = n) && flag && scrolledWrites n flag es
  | Event.printf_yx m _ _ _ _ _ :: es => decide (m = n) && flag && scrolledWrites n flag es
  | Event.render _ _ :: es => flag && scrolledWrites n flag es
  | _ :: es => scrolledWrites n flag es

/-- Whether the call switches scrolling off on some plane. -/
def disablesScrolling : Event → Bool
  | Event.set_scrolling _ b _ => !b
  | _ => false

/-! ## Projections of a trace -/

/-- The options argument of each `notcurses_core_init` call (`none`: `NULL`). -/
def initOptions : List Event → List (Option notcurses_options)
  | [] => []
  | Event.core_init opts _ :: es => opts :: initOptions es
  | _ :: es => initOptions es

/-- Plane, row, column and text of each `ncplane_putstr_yx` call. -/
def putstrCalls : List Event → List (Ptr × Int × Int × String)
  | [] => []
  | Event.putstr_yx n y x s _ :: es => (n, y, x, s) :: putstrCalls es
  | _ :: es => putstrCalls es

/-- Whether the call uses heap string `a`: passes it to a formatting call or
frees it. -/
def usesAlloc (a : Alloc) : Event → Bool
  | Event.printf_yx _ _ _ _ args _ => decide (Arg.str a ∈ args)
  | Event.free b => decide (b = a)
  | _ => false

/-- Whether text of `len` columns starting at column `x` ends at the right
edge of a plane `cols` columns wide. -/
def atRightEdge (cols : Nat) (x : Int) (len : Nat) : Bool :=
  decide (x + (len : Int) = (cols : Int))

/-! ## The rendering core

The library behind the calls is not among the sources.  The part of it that
the "hello world" scenario exercises is modelled from the spec's description
of the surface, the compositor and the emitter. -/

/-- Modelled from the spec: the Cell of the data model, which the sources do
not contain.  A glyph, colours and style bits, each of which may be unset, and
the continuation flag of the trailing columns of a wide glyph. -/
structure Cell where
  glyph : Option Char
  fg : Option Nat
  bg : Option Nat
  style : Option Nat
  continuation : Bool
deriving DecidableEq, Repr

/-- Modelled from the spec: the cell with every attribute unset, the content
of a surface cell nothing was written to. -/
def Cell.unset : Cell :=
  { glyph := none, fg := none, bg := none, style := none, continuation := false }

/-- Modelled from the spec: the style/colour given to a write, or held by a
surface as its default for unset cells. -/
structure Style where
  fg : Option Nat
  bg : Option Nat
  style : Option Nat
deriving DecidableEq, Repr

/-- Modelled from the spec: the style that sets nothing. -/
def Style.unset : Style := { fg := none, bg := none, style := none }

/-- Modelled from the spec: the error kinds of section 7. -/
inductive CoreError
  | InvalidGeometry
  | SessionClosed
  | NegotiationTimeout
  | UnsupportedGlyph
  | WriteFailure
deriving DecidableEq, Repr

/-- Modelled from the spec: a Surface (plane), which the sources do not
contain: a `rows × cols` buffer of cells, a position, a z-index, a visibility
flag, a cursor, the scrolling/wrap switch and a default style.  Only top-level
surfaces are modelled (the standard plane has no parent). -/
structure Surface where
  rows : Nat
  cols : Nat
  y : Int
  x : Int
  z : Int
  visible : Bool
  cursor : Nat × Nat
  scrolling : Bool
  base : Style
  cells : Nat → Nat → Cell

/-- Modelled from the spec: a surface as it is when created: visible, its
cursor at the origin, scrolling off and no cell written.  The spec gives
every surface a default style for unset cells without saying which a new
surface gets, so it is the parameter `base`. -/
def Surface.fresh (rows cols : Nat) (y x z : Int) (base : Style) : Surface :=
  { rows := rows, cols := cols, y := y, x := x, z := z, visible := true,
    cursor := (0, 0), scrolling := false, base := base,
    cells := fun _ _ => Cell.unset }

/-- Modelled from the spec: `create(rows, cols, y, x, z)`, which fails with
`InvalidGeometry` when a dimension is not positive. -/
def Surface.create (rows cols : Nat) (y x z : Int) (base : Style) :
    Except CoreError Surface :=
  if rows = 0 ∨ cols = 0 then Except.error CoreError.InvalidGeometry
  else Except.ok (Surface.fresh rows cols y x z base)

/-- Modelled from the spec: one glyph of `w` columns written at row `r`,
column `c`: the glyph cell, then `w - 1` continuation cells; the cursor
advances past them. -/
def Surface.put (s : Surface) (r c : Nat) (g : Char) (w : Nat) (st : Style) : Surface :=
  { s with
    cells := fun i j =>
      if i = r ∧ j = c then
        { glyph := some g, fg := st.fg, bg := st.bg, style := st.style,
          continuation := false }
      else if i = r ∧ c < j ∧ j < c + w then
        { glyph := none, fg := st.fg, bg := st.bg, style := st.style,
          continuation := true }
      else s.cells i j,
    cursor := (r, c + w) }

/-- Modelled from the spec: the glyphs of a text written from the cursor on.
A glyph that does not fit before the right edge goes to the start of the next
row when scrolling/wrap is enabled and there is a next row; otherwise the
write stops and reports `true` in the "truncated" flag.  `width` gives the
columns of a glyph (glyph metrics are outside the spec's scope). -/
def Surface.writeGlyphs (width : Char → Nat) (st : Style) :
    Surface → List Char → Surface × Bool
  | s, [] => (s, false)
  | s, g :: gs =>
    if s.cursor.1 < s.rows ∧ s.cursor.2 + width g ≤ s.cols then
      Surface.writeGlyphs width st (s.put s.cursor.1 s.cursor.2 g (width g) st) gs
    else if s.scrolling = true ∧ s.cursor.1 + 1 < s.rows ∧ width g ≤ s.cols then
      Surface.writeGlyphs width st (s.put (s.cursor.1 + 1) 0 g (width g) st) gs
    else (s, true)

/-- Modelled from the spec: `writeText(y, x, text, style)`: writes the glyphs
starting at `(y, x)`, advancing the cursor; returns the surface and the
"truncated" flag. -/
def Surface.writeText (width : Char → Nat) (s : Surface) (y x : Nat) (text : String)
    (st : Style) : Surface × Bool :=
  Surface.writeGlyphs width st { s with cursor := (y, x) } text.toList

/-- Modelled from the spec: a cell of the surface as the compositor sees it:
attributes the cell leaves unset take the surface's default style. -/
def Surface.cellAt (s : Surface) (i j : Nat) : Cell :=
  { glyph := (s.cells i j).glyph,
    fg := match (s.cells i j).fg with
      | some v => some v
      | none => s.base.fg,
    bg := match (s.cells i j).bg with
      | some v => some v
      | none => s.base.bg,
    style := match (s.cells i j).style with
      | some v => some v
      | none => s.base.style,
    continuation := (s.cells i j).continuation }

/-- Modelled from the spec: the cell a surface projects onto output
coordinate `(i, j)` through its absolute position; `none` when the surface is
hidden or does not cover the coordinate. -/
def Surface.project (s : Surface) (i j : Nat) : Option Cell :=
  if s.visible = true ∧ s.y ≤ (i : Int) ∧ (i : Int) < s.y + (s.rows : Int) ∧
      s.x ≤ (j : Int) ∧ (j : Int) < s.x + (s.cols : Int) then
    some (s.cellAt ((i : Int) - s.y).toNat ((j : Int) - s.x).toNat)
  else none

/-- Modelled from the spec: per-attribute blending of a higher cell over a
lower one: each of glyph, foreground, background and style comes from the
higher cell when it sets it, else from the lower cell.  A continuation cell
counts as setting the glyph. -/
def blend (lower upper : Cell) : Cell :=
  { glyph := if upper.glyph.isSome ∨ upper.continuation = true then upper.glyph
      else lower.glyph,
    fg := match upper.fg with
      | some v => some v
      | none => lower.fg,
    bg := match upper.bg with
      | some v => some v
      | none => lower.bg,
    style := match upper.style with
      | some v => some v
      | none => lower.style,
    continuation := if upper.glyph.isSome ∨ upper.continuation = true
      then upper.continuation else lower.continuation }

/-- Modelled from the spec: a Pile: the bounds of the output and the
top-level surfaces rendered together. -/
structure Pile where
  rows : Nat
  cols : Nat
  surfaces : List Surface

/-- Modelled from the spec: a Frame, the flattened snapshot of one compositor
pass.  A cell is `some c` when at least one visible surface covers it, and
`none`, the background default, when no surface touches it. -/
structure Frame where
  rows : Nat
  cols : Nat
  cells : Nat → Nat → Option Cell

/-- Modelled from the spec: the empty frame, every cell at the background
default. -/
def Frame.empty (rows cols : Nat) : Frame :=
  { rows := rows, cols := cols, cells := fun _ _ => none }

/-- Modelled from the spec: one compositor step: the cell a surface projects
is laid over what the lower surfaces left, attribute by attribute. -/
def layer (i j : Nat) (acc : Option Cell) (s : Surface) : Option Cell :=
  match s.project i j with
  | some c =>
    match acc with
    | some lower => some (blend lower c)
    | none => some c
  | none => acc

/-- Modelled from the spec: `render(pile)`: surfaces are visited in ascending
z-order (equal z in insertion order) and blended, lowest first, within the
bounds of the pile; a cell no surface touches keeps the background default. -/
def render (p : Pile) : Frame :=
  { rows := p.rows, cols := p.cols,
    cells := fun i j =>
      (List.insertionSort (fun a b : Surface => a.z ≤ b.z) p.surfaces).foldl
        (layer i j) none }

/-- Modelled from the spec: a dirty cell of a diff: its coordinates and its
new content (`none`: back to the background default). -/
structure DirtyCell where
  row : Nat
  col : Nat
  cell : Option Cell
deriving DecidableEq, Repr

/-- Modelled from the spec: the dirty cells `emit(frame, previousFrame?)`
finds, row by row in column order: every cell when there is no previous
frame, otherwise the cells that differ from the previous frame at the same
coordinate.  (Coalescing into runs and colour downgrade act on this list and
are not modelled.) -/
def emit (frame : Frame) (previous : Option Frame) : List DirtyCell :=
  (List.range frame.rows).flatMap fun i =>
    (List.range frame.cols).filterMap fun j =>
      match previous with
      | none => some { row := i, col := j, cell := frame.cells i j }
      | some prev =>
        if frame.cells i j ≠ prev.cells i j then
          some { row := i, col := j, cell := frame.cells i j }
        else none

/-- Modelled from the spec: the rendering state of an `Active` session: its
standard surface, which fills the output, and the frame last emitted. -/
structure Session where
  std : Surface
  previous : Option Frame

/-- Row and column a write starts at: a negative coordinate stands for the
cursor's (examples 01 and 02 pass -1 to write "at the current cursor
coordinates"). -/
def startOf (s : Surface) (y x : Int) : Nat × Nat :=
  (if y < 0 then s.cursor.1 else y.toNat, if x < 0 then s.cursor.2 else x.toNat)

/-- Modelled from the spec: the effect of one library call on the rendering
state, and the diff it emits.  `stdn` is the pointer that designates the
standard surface.  The writes go through `writeText`, `notcurses_render`
through `render` and `emit`; the other calls leave the rendering state as it
is. -/
def perform (width : Char → Nat) (heap : Alloc → String) (stdn : Ptr) (ses : Session) :
    Event → Session × Option (List DirtyCell)
  | Event.putstr_yx n y x text _ =>
    if n = stdn then
      ({ ses with std := (ses.std.writeText width (startOf ses.std y x).1
          (startOf ses.std y x).2 text Style.unset).1 }, none)
    else (ses, none)
  | Event.printf_yx n y x fmt args _ =>
    if n = stdn then
      match cformat heap fmt.toList args with
      | some text =>
        ({ ses with std := (ses.std.writeText width (startOf ses.std y x).1
            (startOf ses.std y x).2 (String.mk text) Style.unset).1 }, none)
      | none => (ses, none)
    else (ses, none)
  | Event.set_scrolling n b _ =>
    if n = stdn then ({ ses with std := { ses.std with scrolling := b } }, none)
    else (ses, none)
  | Event.render _ _ =>
    ({ ses with previous := some (render
        { rows := ses.std.rows, cols := ses.std.cols, surfaces := [ses.std] }) },
      some (emit (render
        { rows := ses.std.rows, cols := ses.std.cols, surfaces := [ses.std] })
        ses.previous))
  | _ => (ses, none)

/-- Modelled from the spec: the diffs a trace of calls emits, in order. -/
def replay (width : Char → Nat) (heap : Alloc → String) (stdn : Ptr) :
    Session → List Event → List (List DirtyCell)
  | _, [] => []
  | ses, e :: es =>
    match (perform width heap stdn ses e).2 with
    | some d => d :: replay width heap stdn (perform width heap stdn ses e).1 es
    | none => replay width heap stdn (perform width heap stdn ses e).1 es

/-- The frame cell that shows glyph `g` of a write without style on a
surface whose default style is `base`. -/
def glyphCell (base : Style) (g : Char) : Cell :=
  { glyph := some g, fg := base.fg, bg := base.bg, style := base.style,
    continuation := false }

/-- The diff that shows `text` at the top left: its glyphs in row 0, from column
0 on, one cell each. -/
def textDiff (base : Style) (text : String) : List DirtyCell :=
  text.toList.enum.map fun p =>
    { row := 0, col := p.1, cell := some (glyphCell base p.2) }

/-- The glyphs of a diff, in its order. -/
def glyphsOf (d : List DirtyCell) : List Char :=
  d.filterMap fun c =>
    match c.cell with
    | some cell => cell.glyph
    | none => none

/-- Every glyph one column wide. -/
def narrow : Char → Nat := fun _ => 1

/-! ## Sample executions -/

/-- Values of the five option flags for the sample executions. -/
def sampleConsts : NcOptionConsts :=
  { NCOPTION_SUPPRESS_BANNERS := 2,
    NCOPTION_PRESERVE_CURSOR := 16,
    NCOPTION_NO_ALTERNATE_SCREEN := 64,
    NCOPTION_NO_CLEAR_BITMAPS := 8,
    NCOPTION_DRAIN_INPUT := 128 }

/-- An execution on an 80x24 terminal in which every library call succeeds. -/
def sampleEnv : Env :=
  { nc := 1, stdn := 2, putstr_ret := 11, set_scrolling_ret := false,
    dimy := 24, dimx := 80, osversion := "Linux", terminal := "xterm",
    printf_ret1 := 0, printf_ret2 := 0,
    caps := { colors := 256, utf8 := true, rgb := false, halfblocks := true,
              quadrants := true, sextants := false, braille := true },
    canpixel := false, render_ret := 0, stop_ret := 0 }

/-- An execution in which `notcurses_core_init` returns `NULL`. -/
def nullEnv : Env := { sampleEnv with nc := NULL }

/-- An execution in which the write and the render fail and `notcurses_stop`
reports an error. -/
def failingEnv : Env :=
  { sampleEnv with putstr_ret := -1, render_ret := -1, stop_ret := -1 }

end Notcurses

/-! # Theorems -/

namespace Notcurses

/-! ## Bitwise or on integers -/

/-- Two integers with the same bits are equal. -/
theorem int_eq_of_testBit_eq (m n : Int) (h : ∀ k, Int.testBit m k = Int.testBit n k) :
    m = n := by
  cases m with
  | ofNat a =>
    cases n with
    | ofNat b =>
      congr 1
      exact Nat.eq_of_testBit_eq (fun k => by simpa [Int.testBit] using h k)
    | negSucc b =>
      exfalso
      have hk := h (a + b)
      have ha : a.testBit (a + b) = false :=
        Nat.testBit_lt_two_pow (lt_of_lt_of_le (Nat.lt_two_pow a) (Nat.pow_le_pow_right (by decide) (by omega)))
      have hb : b.testBit (a + b) = false :=
        Nat.testBit_lt_two_pow (lt_of_lt_of_le (Nat.lt_two_pow b) (Nat.pow_le_pow_right (by decide) (by omega)))
      simp [Int.testBit, ha, hb] at hk
  | negSucc a =>
    cases n with
    | ofNat b =>
      exfalso
      have hk := h (a + b)
      have ha : a.testBit (a + b) = false :=
        Nat.testBit_lt_two_pow (lt_of_lt_of_le (Nat.lt_two_pow a) (Nat.pow_le_pow_right (by decide) (by omega)))
      have hb : b.testBit (a + b) = false :=
        Nat.testBit_lt_two_pow (lt_of_lt_of_le (Nat.lt_two_pow b) (Nat.pow_le_pow_right (by decide) (by omega)))
      simp [Int.testBit, ha, hb] at hk
    | negSucc b =>
      congr 1
      exact Nat.eq_of_testBit_eq (fun k => by simpa [Int.testBit] using h k)

/-- The C operator `|` is commutative. -/
theorem bor_comm (a b : Int) : bor a b = bor b a := by
  apply int_eq_of_testBit_eq
  intro k
  simp [bor, Int.testBit_lor, Bool.or_comm]

/-- The C operator `|` is associative. -/
theorem bor_assoc (a b c : Int) : bor (bor a b) c = bor a (bor b c) := by
  apply int_eq_of_testBit_eq
  intro k
  simp [bor, Int.testBit_lor, Bool.or_assoc]

/-! ## Reading 32-bit words as `int` -/

/-- An `int` value survives the passage through its 32-bit word. -/
theorem asInt_intWord (v : Int) (hlo : -(2 : Int) ^ 31 ≤ v) (hhi : v < (2 : Int) ^ 31) :
    asInt (intWord v) = v := by
  unfold asInt intWord UINT_RANGE
  norm_num at hlo hhi ⊢
  omega

/-- An `unsigned` value below 2^31 reads as the same `int`. -/
theorem asInt_small (w : Nat) (h : w < 2 ^ 31) : asInt w = (w : Int) := by
  unfold asInt UINT_RANGE
  norm_num at h ⊢
  omega

/-! ## Monitors agree with the call-by-call reading -/

/-- A conforming trace makes each of its calls in a state that admits it. -/
theorem conforms_sound (t : List Event) :
    ∀ (s : SessionState), conforms s t = true →
      ∀ pre e post, t = pre ++ e :: post → allowed (stateAfter s pre) e = true := by
  intro s h pre
  induction pre generalizing s t with
  | nil =>
    intro e post ht
    subst ht
    simp [conforms] at h
    simpa [stateAfter] using h.1
  | cons a pre ih =>
    intro e post ht
    subst ht
    simp [conforms] at h
    simpa [stateAfter] using ih _ (next s a) h.2 e post rfl

/-- The scrolling flag after a trace, one call at a time. -/
theorem scrollingAfter_cons (n : Ptr) (flag : Bool) (a : Event) (es : List Event) :
    scrollingAfter n flag (a :: es) = scrollingAfter n (scrollingAfter n flag [a]) es := by
  cases a <;> simp [scrollingAfter]

/-- The scrolling check passes on to the rest of the trace. -/
theorem scrolledWrites_tail (n : Ptr) (flag : Bool) (a : Event) (es : List Event)
    (h : scrolledWrites n flag (a :: es) = true) :
    scrolledWrites n (scrollingAfter n flag [a]) es = true := by
  cases a <;> simp [scrolledWrites, scrollingAfter] at h ⊢
  all_goals first
    | exact h
    | exact h.2

/-- The scrolling check at the first call of a trace. -/
theorem scrolledWrites_head (n : Ptr) (flag : Bool) (e : Event) (es : List Event)
    (h : scrolledWrites n flag (e :: es) = true) :
    (∀ m, writtenPlane e = some m → m = n ∧ flag = true) ∧
    (isRender e = true → flag = true) := by
  cases e <;> simp [scrolledWrites, writtenPlane, isRender] at h ⊢
  all_goals first
    | exact ⟨h.1.1, h.1.2⟩
    | exact h.1

/-- A trace that passes the scrolling check makes every write, and every
render, after a prefix that leaves scrolling on. -/
theorem scrolledWrites_sound (n : Ptr) (t : List Event) :
    ∀ (flag : Bool), scrolledWrites n flag t = true →
      ∀ pre e post, t = pre ++ e :: post →
        (∀ m, writtenPlane e = some m → m = n ∧ scrollingAfter n flag pre = true) ∧
        (isRender e = true → scrollingAfter n flag pre = true) := by
  intro flag h pre
  induction pre generalizing flag t with
  | nil =>
    intro e post ht
    subst ht
    simpa [scrollingAfter] using scrolledWrites_head n flag e post h
  | cons a pre ih =>
    intro e post ht
    subst ht
    rw [scrollingAfter_cons]
    exact ih _ _ (scrolledWrites_tail n flag a _ h) e post rfl

/-! ## The traces, written out -/

/-- The calls of example 00. -/
theorem main00_trace (env : Env) :
    (main00 env).trace =
      [Event.core_init none env.nc, Event.stdplane env.nc env.stdn,
       Event.putstr_yx env.stdn 0 0 "hello world" env.putstr_ret,
       Event.render env.nc env.render_ret, Event.sleep 1,
       Event.stop env.nc env.stop_ret] := rfl

/-- The calls of example 01 after a successful initialisation. -/
theorem main01_trace (k : NcOptionConsts) (env : Env) (h : env.nc ≠ NULL) :
    (main01 k env).trace =
      [Event.core_init (some (nopts01 k)) env.nc, Event.stdplane env.nc env.stdn,
       Event.putstr_yx env.stdn (-1) (-1) "hello world" env.putstr_ret,
       Event.render env.nc env.render_ret,
       Event.stop env.nc env.stop_ret] := by
  by_cases hs : env.stop_ret = 0 <;> simp [main01, h, hs]

/-- The calls of example 02 after a successful initialisation. -/
theorem main02_trace (k : NcOptionConsts) (env : Env) (h : env.nc ≠ NULL) :
    (main02 k env).trace = main02_calls k env := by
  by_cases hs : env.stop_ret = 0 <;> simp [main02, main02_calls, h, hs]

/-! ## C1: session discipline -/

/-- C1 (as stated, fails for example 00): when `notcurses_core_init` returns
`NULL`, example 00 goes on to call `notcurses_stdplane` and the rest, so its
trace does not stay within the `Active` state. -/
theorem C1_example00_null_init_counterexample :
    conforms SessionState.Uninitialized (main00 nullEnv).trace = false := by
  decide

/-- C1 (amended): in examples 01 and 02, for every outcome of
`notcurses_core_init` (a `NULL` result included) and of every other call,
each call on the session or its standard plane is made in the `Active` state
of the session initialisation returned; in example 00 the same holds on every
execution in which `notcurses_core_init` returns a non-`NULL` session. -/
theorem C1_session_discipline (k : NcOptionConsts) (env : Env) :
    conforms SessionState.Uninitialized (main01 k env).trace = true ∧
    conforms SessionState.Uninitialized (main02 k env).trace = true ∧
    (env.nc ≠ NULL →
      conforms SessionState.Uninitialized (main00 env).trace = true) := by
  refine ⟨?_, ?_, ?_⟩
  · by_cases h : env.nc = NULL
    · simp [main01, h, conforms, allowed]
    · by_cases hs : env.stop_ret = 0 <;>
        simp [main01, h, hs, conforms, allowed, next, SessionState.activeFor,
          SessionState.ownsPlane]
  · by_cases h : env.nc = NULL
    · simp [main02, h, conforms, allowed]
    · by_cases hs : env.stop_ret = 0 <;>
        simp [main02, h, hs, conforms, allowed, next, SessionState.activeFor,
          SessionState.ownsPlane]
  · intro h
    simp [main00, h, conforms, allowed, next, SessionState.activeFor,
      SessionState.ownsPlane]

/-- C1 (amended), at sample executions: a failed initialisation for examples
01 and 02, a successful one for example 00. -/
theorem C1_session_discipline_witness :
    conforms SessionState.Uninitialized (main01 sampleConsts nullEnv).trace = true ∧
    conforms SessionState.Uninitialized (main02 sampleConsts nullEnv).trace = true ∧
    conforms SessionState.Uninitialized (main00 sampleEnv).trace = true :=
  ⟨(C1_session_discipline sampleConsts nullEnv).1,
   (C1_session_discipline sampleConsts nullEnv).2.1,
   (C1_session_discipline sampleConsts sampleEnv).2.2 (by decide)⟩

/-! ## C2: exit status of examples 01 and 02 -/

/-- C2: in examples 01 and 02, if `notcurses_core_init` returns `NULL` the
program makes no other library call and returns `EXIT_FAILURE`; otherwise it
returns `EXIT_FAILURE` exactly when `notcurses_stop` returned non-zero and
`EXIT_SUCCESS` exactly when it returned zero, whatever the other calls
returned. -/
theorem C2_exit_status (k : NcOptionConsts) (env : Env) :
    (env.nc = NULL →
      (main01 k env).trace = [Event.core_init (some (nopts01 k)) NULL] ∧
      (main01 k env).exit = EXIT_FAILURE ∧
      (main02 k env).trace = [Event.core_init (some (nopts02 k)) NULL] ∧
      (main02 k env).exit = EXIT_FAILURE) ∧
    (env.nc ≠ NULL →
      Event.stop env.nc env.stop_ret ∈ (main01 k env).trace ∧
      ((main01 k env).exit = EXIT_FAILURE ↔ env.stop_ret ≠ 0) ∧
      ((main01 k env).exit = EXIT_SUCCESS ↔ env.stop_ret = 0) ∧
      Event.stop env.nc env.stop_ret ∈ (main02 k env).trace ∧
      ((main02 k env).exit = EXIT_FAILURE ↔ env.stop_ret ≠ 0) ∧
      ((main02 k env).exit = EXIT_SUCCESS ↔ env.stop_ret = 0)) := by
  constructor
  · intro h
    simp [main01, main02, h]
  · intro h
    by_cases hs : env.stop_ret = 0 <;>
      simp [main01, main02, h, hs, EXIT_FAILURE, EXIT_SUCCESS]

/-- C2 at sample executions: failed initialisation, and a failing
`notcurses_stop` after failing write and render. -/
theorem C2_exit_status_witness :
    (main01 sampleConsts nullEnv).exit = EXIT_FAILURE ∧
    ((main02 sampleConsts failingEnv).exit = EXIT_FAILURE ↔ failingEnv.stop_ret ≠ 0) :=
  ⟨((C2_exit_status sampleConsts nullEnv).1 (by decide)).2.1,
   ((C2_exit_status sampleConsts failingEnv).2 (by decide)).2.2.2.2.1⟩

/-! ## C3: the session is stopped exactly once, last -/

/-- C3: in each of the three examples, on every execution in which
`notcurses_core_init` returned a non-`NULL` session, `notcurses_stop` is
called exactly once, on that session, after `notcurses_render` (whatever the
writes and the render returned), and no call on the session or its standard
plane follows it. -/
theorem C3_stop_once_last (k : NcOptionConsts) (env : Env) (h : env.nc ≠ NULL) :
    ∀ t ∈ [(main00 env).trace, (main01 k env).trace, (main02 k env).trace],
      ∃ pre post, t = pre ++ Event.stop env.nc env.stop_ret :: post ∧
        (∃ opts, Event.core_init opts env.nc ∈ pre) ∧
        Event.render env.nc env.render_ret ∈ pre ∧
        (∀ e ∈ pre ++ post, isStop e = false) ∧
        (∀ e ∈ post, touches env.nc env.stdn e = false) := by
  intro t ht
  simp only [List.mem_cons, List.mem_singleton, List.not_mem_nil, or_false] at ht
  rcases ht with rfl | rfl | rfl
  · rw [main00_trace]
    refine ⟨[Event.core_init none env.nc, Event.stdplane env.nc env.stdn,
      Event.putstr_yx env.stdn 0 0 "hello world" env.putstr_ret,
      Event.render env.nc env.render_ret, Event.sleep 1], [], rfl, ⟨none, by simp⟩,
      by simp, ?_, by simp⟩
    simp [isStop]
  · rw [main01_trace k env h]
    refine ⟨[Event.core_init (some (nopts01 k)) env.nc, Event.stdplane env.nc env.stdn,
      Event.putstr_yx env.stdn (-1) (-1) "hello world" env.putstr_ret,
      Event.render env.nc env.render_ret], [], rfl, ⟨some (nopts01 k), by simp⟩,
      by simp, ?_, by simp⟩
    simp [isStop]
  · rw [main02_trace k env h]
    refine ⟨(main02_calls k env).take 13, [], rfl, ⟨some (nopts02 k), ?_⟩, ?_, ?_, by simp⟩
    · simp [main02_calls]
    · simp [main02_calls]
    · simp [main02_calls, isStop]

/-- C3 at example 01 on an execution where the write, the render and the
stop all report failure. -/
theorem C3_stop_once_last_witness :
    ∃ pre post, (main01 sampleConsts failingEnv).trace =
        pre ++ Event.stop failingEnv.nc failingEnv.stop_ret :: post ∧
      (∃ opts, Event.core_init opts failingEnv.nc ∈ pre) ∧
      Event.render failingEnv.nc failingEnv.render_ret ∈ pre ∧
      (∀ e ∈ pre ++ post, isStop e = false) ∧
      (∀ e ∈ post, touches failingEnv.nc failingEnv.stdn e = false) :=
  C3_stop_once_last sampleConsts failingEnv (by decide) _
    (List.mem_cons_of_mem _ (List.mem_cons_self _ _))

/-! ## The rendering core keeps the dirty-set properties of the spec -/

/-- Layering surfaces leaves a cell covered exactly when it was covered
before or one of the surfaces covers it. -/
theorem foldl_layer_isSome (i j : Nat) (l : List Surface) :
    ∀ acc : Option Cell, (l.foldl (layer i j) acc).isSome = true ↔
      (acc.isSome = true ∨ ∃ s ∈ l, (s.project i j).isSome = true) := by
  induction l with
  | nil => intro acc; simp
  | cons a l ih =>
    intro acc
    rw [List.foldl_cons, ih]
    have hstep : (layer i j acc a).isSome = true ↔
        (acc.isSome = true ∨ (a.project i j).isSome = true) := by
      unfold layer
      cases hp : a.project i j <;> cases acc <;> simp
    rw [hstep]
    constructor
    · rintro ((h | h) | ⟨s, hs, h⟩)
      · exact Or.inl h
      · exact Or.inr ⟨a, List.mem_cons_self _ _, h⟩
      · exact Or.inr ⟨s, List.mem_cons_of_mem _ hs, h⟩
    · rintro (h | ⟨s, hs, h⟩)
      · exact Or.inl (Or.inl h)
      · rcases List.mem_cons.mp hs with rfl | hs
        · exact Or.inl (Or.inr h)
        · exact Or.inr ⟨s, hs, h⟩

/-- A frame cell is covered exactly when a visible surface of the pile
covers it. -/
theorem render_covered (p : Pile) (i j : Nat) :
    ((render p).cells i j).isSome = true ↔
      ∃ s ∈ p.surfaces, (s.project i j).isSome = true := by
  simp only [render]
  rw [foldl_layer_isSome]
  simp only [Option.isSome_none, Bool.false_eq_true, false_or]
  constructor
  · rintro ⟨s, hs, h⟩
    exact ⟨s, (List.perm_insertionSort _ _).mem_iff.mp hs, h⟩
  · rintro ⟨s, hs, h⟩
    exact ⟨s, (List.perm_insertionSort _ _).mem_iff.mpr hs, h⟩

/-- Against the empty frame the dirty cells are exactly the cells of the
output that at least one visible surface covers (section 8 of the spec). -/
theorem dirty_against_empty (p : Pile) (d : DirtyCell) :
    d ∈ emit (render p) (some (Frame.empty p.rows p.cols)) ↔
      d.row < p.rows ∧ d.col < p.cols ∧
      (∃ s ∈ p.surfaces, (s.project d.row d.col).isSome = true) ∧
      d.cell = (render p).cells d.row d.col := by
  rw [← render_covered]
  obtain ⟨r, c, cell⟩ := d
  simp only [emit, List.mem_flatMap, List.mem_filterMap, List.mem_range, Frame.empty]
  constructor
  · rintro ⟨i, hi, j, hj, h⟩
    split at h
    · cases h
      refine ⟨hi, hj, ?_, rfl⟩
      rename_i hne
      cases hc : (render p).cells r c
      · exact absurd hc hne
      · rfl
    · cases h
  · rintro ⟨hi, hj, hcov, hcell⟩
    refine ⟨r, hi, c, hj, ?_⟩
    have hne : (render p).cells r c ≠ none := by
      intro h0
      rw [h0] at hcov
      simp at hcov
    simp only [render] at hne hcell ⊢
    rw [if_pos hne, hcell]

/-- On the first frame every cell of the output is dirty (section 4.3 of the
spec). -/
theorem dirty_first_frame (p : Pile) (d : DirtyCell) :
    d ∈ emit (render p) none ↔
      d.row < p.rows ∧ d.col < p.cols ∧ d.cell = (render p).cells d.row d.col := by
  obtain ⟨r, c, cell⟩ := d
  simp only [emit, List.mem_flatMap, List.mem_filterMap, List.mem_range]
  constructor
  · rintro ⟨i, hi, j, hj, h⟩
    cases h
    exact ⟨hi, hj, rfl⟩
  · rintro ⟨hi, hj, hcell⟩
    exact ⟨r, hi, c, hj, by simp only [render] at hcell ⊢; rw [hcell]⟩

/-! ## C4: the diff of "hello world" -/

/-- A text of one-column glyphs that fits in the rest of the cursor row is
written there, one cell per glyph, and is not truncated. -/
theorem writeGlyphs_fit (width : Char → Nat) (st : Style) :
    ∀ (text : List Char) (s : Surface), (∀ g ∈ text, width g = 1) →
      s.cursor.1 < s.rows → s.cursor.2 + text.length ≤ s.cols →
      Surface.writeGlyphs width st s text =
        ({ s with
            cursor := (s.cursor.1, s.cursor.2 + text.length),
            cells := fun i j =>
              if i = s.cursor.1 ∧ s.cursor.2 ≤ j ∧ j < s.cursor.2 + text.length then
                { glyph := text[j - s.cursor.2]?, fg := st.fg, bg := st.bg,
                  style := st.style, continuation := false }
              else s.cells i j }, false) := by
  intro text
  induction text with
  | nil =>
    intro s _ _ _
    obtain ⟨rows, cols, y, x, z, visible, cursor, scrolling, base, cells⟩ := s
    simp only [Surface.writeGlyphs, List.length_nil, Nat.add_zero]
    congr 2
    funext i j
    rw [if_neg]
    omega
  | cons g gs ih =>
    intro s hw hr hc
    have hg : width g = 1 := hw g (List.mem_cons_self _ _)
    have hlen : s.cursor.2 + (gs.length + 1) ≤ s.cols := by simpa using hc
    have hfit : s.cursor.1 < s.rows ∧ s.cursor.2 + width g ≤ s.cols :=
      ⟨hr, by rw [hg]; omega⟩
    rw [Surface.writeGlyphs, if_pos hfit,
      ih _ (fun g2 h2 => hw g2 (List.mem_cons_of_mem _ h2)) (by simpa [Surface.put] using hr)
        (by simp only [Surface.put, hg]; omega)]
    obtain ⟨rows, cols, y, x, z, visible, cursor, scrolling, base, cells⟩ := s
    simp only [Surface.put, hg, List.length_cons]
    congr 2
    · congr 1
      omega
    · funext i j
      by_cases hi : i = cursor.1
      · by_cases hj : j = cursor.2
        · subst hi hj
          simp
        · by_cases hin : cursor.2 + 1 ≤ j ∧ j < cursor.2 + 1 + gs.length
          · have h1 : cursor.2 ≤ j ∧ j < cursor.2 + (gs.length + 1) := by omega
            have h2 : j - cursor.2 = (j - (cursor.2 + 1)) + 1 := by omega
            simp only [hi, hin, h1, true_and, and_self, if_true]
            rw [h2, List.getElem?_cons_succ]
          · have h1 : ¬ (cursor.2 ≤ j ∧ j < cursor.2 + (gs.length + 1)) := by omega
            have h3 : ¬ (cursor.2 < j ∧ j < cursor.2 + 1) := by omega
            simp [hi, hin, h1, hj, h3]
      · simp [hi]

/-- A filter over the columns that keeps exactly the first `len` of them. -/
theorem filterMap_range_initial {β : Type} (f : Nat → Option β) (g : Nat → β) (len cols : Nat)
    (h : len ≤ cols) (h1 : ∀ j, j < len → f j = some (g j))
    (h2 : ∀ j, len ≤ j → j < cols → f j = none) :
    (List.range cols).filterMap f = (List.range len).map g := by
  have hsplit : List.range cols = List.range len ++ List.range' len (cols - len) := by
    rw [List.range_eq_range', List.range_eq_range']
    have := List.range'_append 0 len (cols - len) 1
    simp only [Nat.zero_add, Nat.one_mul] at this
    rw [this]
    congr 1
    omega
  rw [hsplit, List.filterMap_append]
  have e1 : (List.range len).filterMap f = (List.range len).map g := by
    rw [← List.filterMap_eq_map]
    apply List.filterMap_congr
    intro j hj
    simpa using h1 j (List.mem_range.mp hj)
  have e2 : (List.range' len (cols - len)).filterMap f = [] := by
    rw [List.filterMap_eq_nil_iff]
    intro j hj
    rw [List.mem_range'_1] at hj
    exact h2 j hj.1 (by omega)
  rw [e1, e2, List.append_nil]

/-- Mapping a list to lists: equal functions on the members give equal
results. -/
theorem flatMap_congr_mem {α β : Type} (l : List α) (f g : α → List β)
    (h : ∀ a ∈ l, f a = g a) : l.flatMap f = l.flatMap g := by
  induction l with
  | nil => rfl
  | cons a l ih =>
    rw [List.flatMap_cons, List.flatMap_cons, h a (List.mem_cons_self _ _),
      ih (fun b hb => h b (List.mem_cons_of_mem _ hb))]

/-- Creation succeeds for positive dimensions. -/
theorem create_ok (rows cols : Nat) (base : Style) (hr : 0 < rows) (hc : 0 < cols) :
    Surface.create rows cols 0 0 0 base = Except.ok (Surface.fresh rows cols 0 0 0 base) := by
  have h : ¬ (rows = 0 ∨ cols = 0) := by omega
  simp [Surface.create, h]

/-- A text written at the origin of a fresh surface that fills the output,
rendered as the first frame or against the empty frame: every cell of the
surface is dirty; the cells of the text carry its glyphs, the others none. -/
theorem emit_written_text (width : Char → Nat) (rows cols : Nat) (text : String)
    (base : Style) (prev : Option Frame)
    (hr : 0 < rows) (hc : text.length ≤ cols) (hw : ∀ g ∈ text.toList, width g = 1)
    (hp : prev = none ∨ prev = some (Frame.empty rows cols)) :
    emit (render (Pile.mk
        ((Surface.fresh rows cols 0 0 0 base).writeText width 0 0 text Style.unset).1.rows
        ((Surface.fresh rows cols 0 0 0 base).writeText width 0 0 text Style.unset).1.cols
        [((Surface.fresh rows cols 0 0 0 base).writeText width 0 0 text Style.unset).1]))
      prev =
    (List.range rows).flatMap fun i =>
      (List.range cols).map fun j =>
        DirtyCell.mk i j (some (Cell.mk
          (if i = 0 ∧ j < text.length then text.toList[j]? else none)
          base.fg base.bg base.style false)) := by
  have hlen : text.toList.length = text.length := rfl
  rw [Surface.writeText, writeGlyphs_fit width Style.unset text.toList _ hw
    (by simpa [Surface.fresh] using hr) (by simpa [hlen, Surface.fresh] using hc)]
  simp only [Surface.fresh, emit, render, Frame.empty, List.insertionSort, List.orderedInsert,
    List.foldl_cons, List.foldl_nil, layer, Surface.project, Surface.cellAt, Style.unset]
  apply flatMap_congr_mem
  intro i hi
  have hir : i < rows := List.mem_range.mp hi
  apply filterMap_range_initial _ _ cols cols (le_refl _)
  · intro j hjc
    rcases hp with rfl | rfl
    · by_cases hin : i = 0 ∧ j < text.length
      · simp [hr, hir, hjc, hin, hlen, Cell.unset, Frame.empty]
      · have hin2 : ¬ (i = 0 ∧ j < text.toList.length) := by simpa [hlen] using hin
        simp [hr, hir, hjc, hin, hin2, Cell.unset, Frame.empty]
    · by_cases hin : i = 0 ∧ j < text.length
      · simp [hr, hir, hjc, hin, hlen, Cell.unset, Frame.empty]
      · have hin2 : ¬ (i = 0 ∧ j < text.toList.length) := by simpa [hlen] using hin
        simp [hr, hir, hjc, hin, hin2, Cell.unset, Frame.empty]
  · intro j h1 h2
    omega

/-- Every row of the diff has as many cells as the surface has columns. -/
theorem length_flatMap_rows {β : Type} (F : Nat → Nat → β) (rows cols : Nat) :
    ((List.range rows).flatMap fun i => (List.range cols).map fun j => F i j).length =
      rows * cols := by
  induction rows with
  | zero => simp
  | succ n ih =>
    rw [List.range_succ, List.flatMap_append, List.length_append, ih]
    simp [Nat.succ_mul]

/-- On a standard surface of any size that holds the text, the calls of
example 00 emit one diff with a dirty cell for every cell of the surface. -/
theorem hello_world_diff_size (width : Char → Nat) (rows cols : Nat) (base : Style)
    (env : Env) (prev : Option Frame)
    (hr : 0 < rows) (hc : 11 ≤ cols) (hw : ∀ g ∈ "hello world".toList, width g = 1)
    (hp : prev = none ∨ prev = some (Frame.empty rows cols)) :
    (replay width env.heap env.stdn (Session.mk (Surface.fresh rows cols 0 0 0 base) prev)
      (main00 env).trace).map List.length = [rows * cols] := by
  have hlen : "hello world".length = 11 := by decide
  have key := emit_written_text width rows cols "hello world" base prev hr (by omega) hw hp
  have hstart : startOf (Surface.fresh rows cols 0 0 0 base) 0 0 = (0, 0) := by
    simp [startOf]
  simp only [main00_trace, replay, perform, if_true, hstart]
  rw [key]
  simp only [List.map_cons, List.map_nil]
  rw [length_flatMap_rows]

/-- C4 (as stated, fails against the rendering core as the spec describes
it): on a standard surface of one row and 12 columns, which is at least 11
columns wide, the calls of example 00 rendered against an empty previous
frame emit 12 dirty cells, not 11: the cell the text does not reach is
covered by the surface and so is dirty too.  The same holds for a first
frame. -/
theorem C4_wider_surface_counterexample :
    Surface.create 1 12 0 0 0 Style.unset =
      Except.ok (Surface.fresh 1 12 0 0 0 Style.unset) ∧
    (replay narrow sampleEnv.heap sampleEnv.stdn
      (Session.mk (Surface.fresh 1 12 0 0 0 Style.unset) (some (Frame.empty 1 12)))
      (main00 sampleEnv).trace).map List.length = [12] ∧
    (replay narrow sampleEnv.heap sampleEnv.stdn
      (Session.mk (Surface.fresh 1 12 0 0 0 Style.unset) none)
      (main00 sampleEnv).trace).map List.length = [12] :=
  ⟨rfl, by decide, by decide⟩

/-- C4 (amended): against the rendering core as the spec describes it: on a
standard surface of exactly one row and 11 columns, whatever its default
style, with one-column glyphs, the calls of example 00
(`ncplane_putstr_yx(stdplane, 0, 0, "hello world")`, then `notcurses_render`)
rendered as the first frame or against an empty previous frame emit one diff
of exactly 11 dirty cells, at row 0, columns 0 to 10, whose glyphs in column
order spell "hello world". -/
theorem C4_hello_world_diff (width : Char → Nat) (base : Style) (env : Env)
    (prev : Option Frame)
    (hw : ∀ g ∈ "hello world".toList, width g = 1)
    (hp : prev = none ∨ prev = some (Frame.empty 1 11)) :
    ∃ s0, Surface.create 1 11 0 0 0 base = Except.ok s0 ∧
      replay width env.heap env.stdn (Session.mk s0 prev) (main00 env).trace =
        [textDiff base "hello world"] ∧
      (textDiff base "hello world").length = 11 ∧
      (textDiff base "hello world").map (fun d => (d.row, d.col)) =
        (List.range 11).map (fun j => (0, j)) ∧
      String.mk (glyphsOf (textDiff base "hello world")) = "hello world" := by
  refine ⟨Surface.fresh 1 11 0 0 0 base, create_ok 1 11 base (by decide) (by decide), ?_,
    rfl, rfl, rfl⟩
  have key := emit_written_text width 1 11 "hello world" base prev (by decide) (by decide)
    hw hp
  have hstart : startOf (Surface.fresh 1 11 0 0 0 base) 0 0 = (0, 0) := by
    simp [startOf]
  simp only [main00_trace, replay, perform, if_true, hstart]
  rw [key]
  rfl

/-- C4 (amended) at the sample execution: first frame, no default style. -/
theorem C4_hello_world_diff_witness :
    ∃ s0, Surface.create 1 11 0 0 0 Style.unset = Except.ok s0 ∧
      replay narrow sampleEnv.heap sampleEnv.stdn (Session.mk s0 none)
        (main00 sampleEnv).trace = [textDiff Style.unset "hello world"] ∧
      (textDiff Style.unset "hello world").length = 11 ∧
      (textDiff Style.unset "hello world").map (fun d => (d.row, d.col)) =
        (List.range 11).map (fun j => (0, j)) ∧
      String.mk (glyphsOf (textDiff Style.unset "hello world")) = "hello world" :=
  C4_hello_world_diff narrow Style.unset sampleEnv none (fun _ _ => rfl) (Or.inl rfl)

/-! ## C5: where example 00 writes -/

/-- C5 (the code departs from its own comment): on an 80-column standard
plane example 00 passes row 0, column 0 to `ncplane_putstr_yx`, the top left
corner; the eleven columns of "hello world" then end at column 11, not at the
right edge (column 80) that the comment "top right corner" announces. -/
theorem C5_example00_writes_top_left :
    sampleEnv.dimx = 80 ∧
    putstrCalls (main00 sampleEnv).trace = [(sampleEnv.stdn, 0, 0, "hello world")] ∧
    atRightEdge sampleEnv.dimx 0 "hello world".length = false := by
  decide

/-- The position example 00 writes at is (0, 0) on every execution: it does
not depend on the dimensions of the standard plane. -/
theorem example00_position_fixed (env : Env) :
    putstrCalls (main00 env).trace = [(env.stdn, 0, 0, "hello world")] := rfl

/-! ## C6: scrolling in example 02 -/

/-- C6: in example 02, whatever the scrolling flag of the standard plane was
before, every text-writing call writes to the standard plane while its
scrolling flag is on and the render happens while it is on; no call switches
scrolling off; and when initialisation succeeds, `ncplane_set_scrolling(stdn,
true)` precedes every text-writing call, both `ncplane_printf_yx` calls and
the render. -/
theorem C6_scrolling_enabled (k : NcOptionConsts) (env : Env) (flag : Bool) :
    (∀ pre e post, (main02 k env).trace = pre ++ e :: post →
      (∀ n, writtenPlane e = some n →
        n = env.stdn ∧ scrollingAfter env.stdn flag pre = true) ∧
      (isRender e = true → scrollingAfter env.stdn flag pre = true)) ∧
    (∀ e ∈ (main02 k env).trace, disablesScrolling e = false) ∧
    (env.nc ≠ NULL →
      ∃ pre post, (main02 k env).trace =
          pre ++ Event.set_scrolling env.stdn true env.set_scrolling_ret :: post ∧
        (∀ e ∈ pre, writtenPlane e = none ∧ isRender e = false) ∧
        (printfCalls post).length = 2 ∧
        Event.render env.nc env.render_ret ∈ post) := by
  by_cases h : env.nc = NULL
  · refine ⟨?_, ?_, fun hn => absurd h hn⟩
    · apply scrolledWrites_sound
      simp [main02, h, scrolledWrites]
    · simp [main02, h, disablesScrolling]
  · refine ⟨?_, ?_, fun _ => ?_⟩
    · apply scrolledWrites_sound
      rw [main02_trace k env h]
      simp [main02_calls, scrolledWrites, scrollingAfter]
    · rw [main02_trace k env h]
      simp [main02_calls, disablesScrolling]
    · rw [main02_trace k env h]
      refine ⟨(main02_calls k env).take 2, (main02_calls k env).drop 3, rfl, ?_, ?_, ?_⟩
      · simp [main02_calls, writtenPlane, isRender]
      · simp [main02_calls, printfCalls]
      · simp [main02_calls]

/-- C6 at the sample execution, with scrolling off beforehand: the second
formatting call is made with scrolling on. -/
theorem C6_scrolling_enabled_witness :
    scrollingAfter sampleEnv.stdn false ((main02 sampleConsts sampleEnv).trace.take 11) = true :=
  (((C6_scrolling_enabled sampleConsts sampleEnv false).1
      ((main02 sampleConsts sampleEnv).trace.take 11)
      (Event.printf_yx sampleEnv.stdn (-1) (-1) fmtCapabilities
        [Arg.lit "true", Arg.lit "true", Arg.lit "true", Arg.lit "false",
         Arg.lit "true", Arg.lit "false", Arg.lit "false", Arg.int 256] 0)
      ((main02 sampleConsts sampleEnv).trace.drop 12)
      (by decide)).1 sampleEnv.stdn rfl).2

/-! ## C7: the capability report -/

/-- C7: on every execution of example 02 whose initialisation succeeded, the
second formatting call has the capability format string, which has eight
conversion specifiers, and eight arguments; its output pairs each label with
its own capability ("true" exactly when the field, or `notcurses_canpixel`
for the pixel line, is set) and shows the `colors` field on the palette line;
the capabilities object is left as it was. -/
theorem C7_capability_report (k : NcOptionConsts) (env : Env) (h : env.nc ≠ NULL)
    (hlo : -(2 : Int) ^ 31 ≤ env.caps.colors) (hhi : env.caps.colors < (2 : Int) ^ 31) :
    ∃ args, (printfCalls (main02 k env).trace)[1]? = some (fmtCapabilities, args) ∧
      countSpecs fmtCapabilities.toList = 8 ∧
      args.length = 8 ∧
      cformat env.heap fmtCapabilities.toList args = some (String.toList (
        "Capabilities:\n" ++
        "  utf8: " ++ shown env.caps.utf8 ++ "\n" ++
        "  halfblocks: " ++ shown env.caps.halfblocks ++ "\n" ++
        "  quadrants: " ++ shown env.caps.quadrants ++ "\n" ++
        "  sextants: " ++ shown env.caps.sextants ++ "\n" ++
        "  braille: " ++ shown env.caps.braille ++ "\n" ++
        "  pixel: " ++ shown env.canpixel ++ "\n" ++
        "  24bit-color: " ++ shown env.caps.rgb ++ "\n" ++
        "  palette colors: " ++ toString env.caps.colors ++ "\n")) ∧
      (main02 k env).caps = env.caps := by
  refine ⟨[Arg.lit (boolText env.caps.utf8), Arg.lit (boolText env.caps.halfblocks),
    Arg.lit (boolText env.caps.quadrants), Arg.lit (boolText env.caps.sextants),
    Arg.lit (boolText env.caps.braille), Arg.lit (boolText env.canpixel),
    Arg.lit (boolText env.caps.rgb), Arg.int env.caps.colors], ?_, by decide, rfl, ?_, ?_⟩
  · rw [main02_trace k env h]
    simp [main02_calls, printfCalls]
  · have hb : ∀ b : Bool, boolText b = shown b := by
      intro b; cases b <;> rfl
    set_option maxRecDepth 8000 in
    simp [fmtCapabilities, cformat, convert, decimal, hb, asInt_intWord _ hlo hhi]
  · by_cases hs : env.stop_ret = 0 <;> simp [main02, h, hs]

/-- C7 at the sample execution. -/
theorem C7_capability_report_witness :
    ∃ args, (printfCalls (main02 sampleConsts sampleEnv).trace)[1]? =
        some (fmtCapabilities, args) ∧
      countSpecs fmtCapabilities.toList = 8 ∧
      args.length = 8 ∧
      cformat sampleEnv.heap fmtCapabilities.toList args = some (String.toList (
        "Capabilities:\n" ++
        "  utf8: " ++ shown sampleEnv.caps.utf8 ++ "\n" ++
        "  halfblocks: " ++ shown sampleEnv.caps.halfblocks ++ "\n" ++
        "  quadrants: " ++ shown sampleEnv.caps.quadrants ++ "\n" ++
        "  sextants: " ++ shown sampleEnv.caps.sextants ++ "\n" ++
        "  braille: " ++ shown sampleEnv.caps.braille ++ "\n" ++
        "  pixel: " ++ shown sampleEnv.canpixel ++ "\n" ++
        "  24bit-color: " ++ shown sampleEnv.caps.rgb ++ "\n" ++
        "  palette colors: " ++ toString sampleEnv.caps.colors ++ "\n")) ∧
      (main02 sampleConsts sampleEnv).caps = sampleEnv.caps :=
  C7_capability_report sampleConsts sampleEnv (by decide) (by decide) (by decide)

/-! ## C8: the environment report -/

/-- The environment report has four conversion specifiers and four
arguments: the two queried strings, then `dimy`, then `dimx`. -/
theorem environment_report_call (k : NcOptionConsts) (env : Env) (h : env.nc ≠ NULL) :
    (printfCalls (main02 k env).trace)[0]? =
      some (fmtEnvironment,
        [Arg.str Alloc.osversion, Arg.str Alloc.terminal,
         Arg.uint (env.dimy % UINT_RANGE), Arg.uint (env.dimx % UINT_RANGE)]) ∧
    countSpecs fmtEnvironment.toList = 4 := by
  refine ⟨?_, by decide⟩
  rw [main02_trace k env h]
  simp [main02_calls, printfCalls]

/-- For dimensions that an `int` can hold the environment report reads the
OS version, the terminal name, then "Dimensions: dimy rows, dimx cols". -/
theorem environment_report_text (env : Env) (hy : env.dimy < 2 ^ 31) (hx : env.dimx < 2 ^ 31) :
    cformat env.heap fmtEnvironment.toList
        [Arg.str Alloc.osversion, Arg.str Alloc.terminal,
         Arg.uint (env.dimy % UINT_RANGE), Arg.uint (env.dimx % UINT_RANGE)] =
      some (String.toList (
        "\nOperating System: " ++ env.osversion ++ "\n" ++
        "Terminal: " ++ env.terminal ++ "\n" ++
        "Dimensions: " ++ toString env.dimy ++ " rows, " ++ toString env.dimx ++
        " cols\n\n")) := by
  have ey : env.dimy % UINT_RANGE = env.dimy :=
    Nat.mod_eq_of_lt (lt_trans hy (by decide))
  have ex : env.dimx % UINT_RANGE = env.dimx :=
    Nat.mod_eq_of_lt (lt_trans hx (by decide))
  have sy : toString (env.dimy : Int) = toString env.dimy := rfl
  have sx : toString (env.dimx : Int) = toString env.dimx := rfl
  rw [ey, ex]
  set_option maxRecDepth 8000 in
  simp [fmtEnvironment, cformat, convert, decimal, Env.heap, asInt_small _ hy,
    asInt_small _ hx, sy, sx]

/-- The two queried strings are freed after the formatting call that prints
them, and no later call uses them. -/
theorem environment_strings_freed_after_use (k : NcOptionConsts) (env : Env)
    (h : env.nc ≠ NULL) :
    ∃ pre args post, (main02 k env).trace =
        pre ++ Event.printf_yx env.stdn (-1) (-1) fmtEnvironment args env.printf_ret1 ::
          Event.free Alloc.osversion :: Event.free Alloc.terminal :: post ∧
      Arg.str Alloc.osversion ∈ args ∧ Arg.str Alloc.terminal ∈ args ∧
      (∀ e ∈ pre, usesAlloc Alloc.osversion e = false ∧
        usesAlloc Alloc.terminal e = false) ∧
      (∀ e ∈ post, usesAlloc Alloc.osversion e = false ∧
        usesAlloc Alloc.terminal e = false) := by
  rw [main02_trace k env h]
  refine ⟨(main02_calls k env).take 6, _, (main02_calls k env).drop 9, rfl, ?_, ?_, ?_, ?_⟩
  · simp
  · simp
  · simp [main02_calls, usesAlloc]
  · simp [main02_calls, usesAlloc]

/-- C8: on every execution of example 02 whose initialisation succeeded and
whose queried dimensions are in the range `%i` prints (below 2^31, which
every terminal size is), the first formatting call has the environment format
string, which has four conversion specifiers, and four arguments; its output
shows the OS version, then the terminal name, then "Dimensions: dimy rows,
dimx cols" with the first queried dimension as rows and the second as
columns; the two queried strings are freed right after that call and no
other call uses them. -/
theorem C8_environment_report (k : NcOptionConsts) (env : Env) (h : env.nc ≠ NULL)
    (hy : env.dimy < 2 ^ 31) (hx : env.dimx < 2 ^ 31) :
    ∃ pre args post,
      (main02 k env).trace =
        pre ++ Event.printf_yx env.stdn (-1) (-1) fmtEnvironment args env.printf_ret1 ::
          Event.free Alloc.osversion :: Event.free Alloc.terminal :: post ∧
      Event.dim_yx env.stdn env.dimy env.dimx ∈ pre ∧
      (printfCalls (main02 k env).trace)[0]? = some (fmtEnvironment, args) ∧
      countSpecs fmtEnvironment.toList = 4 ∧
      args.length = 4 ∧
      cformat env.heap fmtEnvironment.toList args = some (String.toList (
        "\nOperating System: " ++ env.osversion ++ "\n" ++
        "Terminal: " ++ env.terminal ++ "\n" ++
        "Dimensions: " ++ toString env.dimy ++ " rows, " ++ toString env.dimx ++
        " cols\n\n")) ∧
      (∀ e ∈ pre, usesAlloc Alloc.osversion e = false ∧
        usesAlloc Alloc.terminal e = false) ∧
      (∀ e ∈ post, usesAlloc Alloc.osversion e = false ∧
        usesAlloc Alloc.terminal e = false) := by
  have ey : env.dimy % UINT_RANGE = env.dimy :=
    Nat.mod_eq_of_lt (lt_trans hy (by decide))
  have ex : env.dimx % UINT_RANGE = env.dimx :=
    Nat.mod_eq_of_lt (lt_trans hx (by decide))
  refine ⟨(main02_calls k env).take 6,
    [Arg.str Alloc.osversion, Arg.str Alloc.terminal,
     Arg.uint (env.dimy % UINT_RANGE), Arg.uint (env.dimx % UINT_RANGE)],
    (main02_calls k env).drop 9, ?_, ?_, ?_, by decide, rfl,
    environment_report_text env hy hx, ?_, ?_⟩
  · rw [main02_trace k env h]
    rfl
  · simp [main02_calls, ey, ex]
  · exact (environment_report_call k env h).1
  · simp [main02_calls, usesAlloc]
  · simp [main02_calls, usesAlloc]

/-- C8 at the sample execution (80 columns, 24 rows). -/
theorem C8_environment_report_witness :
    ∃ pre args post,
      (main02 sampleConsts sampleEnv).trace =
        pre ++ Event.printf_yx sampleEnv.stdn (-1) (-1) fmtEnvironment args
            sampleEnv.printf_ret1 ::
          Event.free Alloc.osversion :: Event.free Alloc.terminal :: post ∧
      Event.dim_yx sampleEnv.stdn sampleEnv.dimy sampleEnv.dimx ∈ pre ∧
      (printfCalls (main02 sampleConsts sampleEnv).trace)[0]? =
        some (fmtEnvironment, args) ∧
      countSpecs fmtEnvironment.toList = 4 ∧
      args.length = 4 ∧
      cformat sampleEnv.heap fmtEnvironment.toList args = some (String.toList (
        "\nOperating System: " ++ sampleEnv.osversion ++ "\n" ++
        "Terminal: " ++ sampleEnv.terminal ++ "\n" ++
        "Dimensions: " ++ toString sampleEnv.dimy ++ " rows, " ++
        toString sampleEnv.dimx ++ " cols\n\n")) ∧
      (∀ e ∈ pre, usesAlloc Alloc.osversion e = false ∧
        usesAlloc Alloc.terminal e = false) ∧
      (∀ e ∈ post, usesAlloc Alloc.osversion e = false ∧
        usesAlloc Alloc.terminal e = false) :=
  C8_environment_report sampleConsts sampleEnv (by decide) (by decide) (by decide)

/-! ## C9: the options passed to initialisation -/

/-- C9: for every value of the five option-flag constants, examples 01 and
02 pass the same flags word to `notcurses_core_init`; bit by bit that word is
the or of the five flags (a bit of the word is set exactly when it is set in
one of the five constants); every other member of the options is zero;
example 00 passes `NULL`. -/
theorem C9_same_flags (k : NcOptionConsts) (env : Env) :
    initOptions (main00 env).trace = [none] ∧
    initOptions (main01 k env).trace = [some (nopts01 k)] ∧
    initOptions (main02 k env).trace = [some (nopts02 k)] ∧
    (nopts01 k).member "flags" = (nopts02 k).member "flags" ∧
    (∀ i : Nat, Int.testBit ((nopts01 k).member "flags") i =
      (Int.testBit k.NCOPTION_SUPPRESS_BANNERS i ||
       Int.testBit k.NCOPTION_PRESERVE_CURSOR i ||
       Int.testBit k.NCOPTION_NO_ALTERNATE_SCREEN i ||
       Int.testBit k.NCOPTION_NO_CLEAR_BITMAPS i ||
       Int.testBit k.NCOPTION_DRAIN_INPUT i)) ∧
    (∀ i : Nat, Int.testBit ((nopts02 k).member "flags") i =
      (Int.testBit k.NCOPTION_SUPPRESS_BANNERS i ||
       Int.testBit k.NCOPTION_PRESERVE_CURSOR i ||
       Int.testBit k.NCOPTION_NO_ALTERNATE_SCREEN i ||
       Int.testBit k.NCOPTION_NO_CLEAR_BITMAPS i ||
       Int.testBit k.NCOPTION_DRAIN_INPUT i)) ∧
    (∀ name, name ≠ "flags" →
      (nopts01 k).member name = 0 ∧ (nopts02 k).member name = 0) := by
  have e : bor (bor k.NCOPTION_SUPPRESS_BANNERS k.NCOPTION_PRESERVE_CURSOR)
      k.NCOPTION_NO_ALTERNATE_SCREEN =
      bor (bor k.NCOPTION_NO_ALTERNATE_SCREEN k.NCOPTION_SUPPRESS_BANNERS)
      k.NCOPTION_PRESERVE_CURSOR := by
    rw [bor_comm (bor k.NCOPTION_SUPPRESS_BANNERS k.NCOPTION_PRESERVE_CURSOR), bor_assoc]
  have f1 : (nopts01 k).member "flags" =
      bor (bor (bor (bor k.NCOPTION_SUPPRESS_BANNERS k.NCOPTION_PRESERVE_CURSOR)
        k.NCOPTION_NO_ALTERNATE_SCREEN) k.NCOPTION_NO_CLEAR_BITMAPS)
        k.NCOPTION_DRAIN_INPUT := by
    simp [notcurses_options.member, nopts01, List.lookup]
  have f2 : (nopts02 k).member "flags" = (nopts01 k).member "flags" := by
    simp [notcurses_options.member, nopts01, nopts02, List.lookup, e]
  have bits : ∀ i : Nat, Int.testBit ((nopts01 k).member "flags") i =
      (Int.testBit k.NCOPTION_SUPPRESS_BANNERS i ||
       Int.testBit k.NCOPTION_PRESERVE_CURSOR i ||
       Int.testBit k.NCOPTION_NO_ALTERNATE_SCREEN i ||
       Int.testBit k.NCOPTION_NO_CLEAR_BITMAPS i ||
       Int.testBit k.NCOPTION_DRAIN_INPUT i) := by
    intro i
    rw [f1]
    simp only [bor, Int.testBit_lor]
  refine ⟨rfl, ?_, ?_, f2.symm, bits, ?_, ?_⟩
  · by_cases h : env.nc = NULL
    · simp [main01, h, initOptions]
    · simp [main01_trace k env h, initOptions]
  · by_cases h : env.nc = NULL
    · simp [main02, h, initOptions]
    · simp [main02_trace k env h, main02_calls, initOptions]
  · intro i
    rw [f2]
    exact bits i
  · intro name hname
    have hb : (name == "flags") = false := by simpa using hname
    simp [notcurses_options.member, nopts01, nopts02, List.lookup, hb]

/-- C9 at the sample constants 2, 16, 64, 8 and 128: example 01 passes the
word 218, example 02 passes the same word, bit 1 of it is set because it is
set in the first constant, and the member `loglevel` is zero in both. -/
theorem C9_same_flags_witness :
    (nopts01 sampleConsts).member "flags" = 218 ∧
    (nopts02 sampleConsts).member "flags" = 218 ∧
    Int.testBit ((nopts02 sampleConsts).member "flags") 1 = true ∧
    (nopts01 sampleConsts).member "loglevel" = 0 ∧
    (nopts02 sampleConsts).member "loglevel" = 0 :=
  ⟨by decide,
   (C9_same_flags sampleConsts sampleEnv).2.2.2.1 ▸ (by decide),
   ((C9_same_flags sampleConsts sampleEnv).2.2.2.2.2.1 1).trans (by decide),
   (C9_same_flags sampleConsts sampleEnv).2.2.2.2.2.2 "loglevel" (by decide)⟩

/-! ## C10: exit status of example 00 -/

/-- C10: example 00 returns 0 on every execution, so its exit status is the
same for every combination of results of `notcurses_core_init`,
`ncplane_putstr_yx`, `notcurses_render` and `notcurses_stop`. -/
theorem C10_example00_exit_zero (env env2 : Env) :
    (main00 env).exit = 0 ∧ (main00 env).exit = (main00 env2).exit :=
  ⟨rfl, rfl⟩

end Notcurses
